import Mathlib

/-!
Shallow embedding of the WebRTC signaling server in src/server/app.py:
the ConnectionManager (active_connections, user_rooms, user_info), its
connect / disconnect / broadcast_to_room / send_to_user operations, and
the websocket message handlers.  Python dicts are modelled as association
lists, sets of websockets as lists, a websocket as a Nat identity, and a
failing transport as a list of dead connections whose sends raise.  The
fire-and-forget user_left broadcast (asyncio.create_task) is modelled as
running right after the disconnect cleanup, matching its deferred
execution.  The fuel parameter bounds the cascade depth of
failure-triggered disconnects; out of fuel the operation is the identity.
-/

namespace VideoCall

/-- A websocket connection, identified (like the Python object) by identity. -/
abbrev Conn := Nat

abbrev RoomId := String

/-- The user_data dict built in websocket_endpoint: id, name, joined_at, platform. -/
structure UserData where
  id : String
  name : String
  joined_at : String
  platform : String
deriving DecidableEq

/-- An inbound JSON object, restricted to the fields the handlers read.
type? models message.get("type"), target models message.get("target"),
message the chat text field, audio_enabled/video_enabled the media-state
fields; payload stands for the remaining fields (sdp, candidate, ...). -/
structure InMsg where
  type? : Option String
  target : Option String
  message : Option String
  audio_enabled : Option Bool
  video_enabled : Option Bool
  payload : String
deriving DecidableEq

/-- Outbound messages, one constructor per "type" value the server sends.
webrtc is the inbound offer/answer/ice-candidate dict augmented with
sender, sender_name and platform, as in handle_webrtc_message. -/
inductive OutMsg where
  | room_joined (room_id : RoomId) (user_id : String) (participants : List UserData)
      (server : String)
  | user_joined (user : UserData) (room_id : RoomId)
  | user_left (user : UserData)
  | webrtc (m : InMsg) (sender : String) (sender_name : String) (platform : String)
  | media_state (user : UserData) (audio_enabled : Bool) (video_enabled : Bool)
      (platform : String)
  | chat (user : UserData) (message : String) (timestamp : String) (platform : String)
  | pong
  | error (message : String)
deriving DecidableEq

/-- A successful delivery of a message to a connection. -/
abbrev Event := Conn × OutMsg

/-- The ConnectionManager state: active_connections maps a room id to its
member set, user_rooms maps a websocket to its room, user_info maps a
websocket to its user_data dict. -/
structure ManagerState where
  active_connections : List (RoomId × List Conn)
  user_rooms : List (Conn × RoomId)
  user_info : List (Conn × UserData)
deriving DecidableEq

/-- Dictionary lookup on an association list (first matching key). -/
def alookup {α β : Type} [DecidableEq α] (k : α) : List (α × β) → Option β
  | [] => none
  | (a, b) :: l => if a = k then some b else alookup k l

/-- Dictionary deletion: del d[k]. -/
def eraseK {α β : Type} [DecidableEq α] (k : α) (l : List (α × β)) : List (α × β) :=
  l.filter (fun p => !decide (p.1 = k))

/-- Dictionary assignment: d[k] = v. -/
def setK {α β : Type} [DecidableEq α] (k : α) (v : β) (l : List (α × β)) :
    List (α × β) :=
  (k, v) :: eraseK k l

/-- Set insertion: s.add(c). -/
def addToSet (c : Conn) (ms : List Conn) : List Conn :=
  if c ∈ ms then ms else ms ++ [c]

/-- active_connections[rid].add(c), a no-op on rooms other than rid and
when rid is absent. -/
def addMember (rid : RoomId) (c : Conn) (ac : List (RoomId × List Conn)) :
    List (RoomId × List Conn) :=
  ac.map (fun p => if p.1 = rid then (p.1, addToSet c p.2) else p)

/-- active_connections[rid].discard(c), a no-op on rooms other than rid and
when rid is absent. -/
def discardMember (rid : RoomId) (c : Conn) (ac : List (RoomId × List Conn)) :
    List (RoomId × List Conn) :=
  ac.map (fun p => if p.1 = rid then (p.1, p.2.filter (fun x => !decide (x = c))) else p)

/-- Room creation on first join: if room_id not in active_connections,
active_connections[room_id] = set(). -/
def ensureRoom (rid : RoomId) (ac : List (RoomId × List Conn)) :
    List (RoomId × List Conn) :=
  if (alookup rid ac).isSome then ac else (rid, []) :: ac

/-- Empty-room deletion: if not active_connections[room_id], del it. -/
def dropIfEmpty (rid : RoomId) (ac : List (RoomId × List Conn)) :
    List (RoomId × List Conn) :=
  if alookup rid ac = some [] then eraseK rid ac else ac

/-- The member set of a room, empty when the room is absent. -/
def membersOf (st : ManagerState) (rid : RoomId) : List Conn :=
  (alookup rid st.active_connections).getD []

@[simp] theorem alookup_nil {α β : Type} [DecidableEq α] (k : α) :
    alookup k ([] : List (α × β)) = none := rfl

@[simp] theorem alookup_cons {α β : Type} [DecidableEq α] (k a : α) (b : β)
    (l : List (α × β)) :
    alookup k ((a, b) :: l) = if a = k then some b else alookup k l := rfl

theorem alookup_eraseK {α β : Type} [DecidableEq α] (k k2 : α) (l : List (α × β)) :
    alookup k (eraseK k2 l) = if k = k2 then none else alookup k l := by
  induction l with
  | nil => simp [eraseK]
  | cons p t ih =>
    obtain ⟨a, b⟩ := p
    by_cases h1 : a = k2 <;> by_cases h2 : a = k <;>
      simp_all [eraseK, List.filter_cons]

theorem alookup_setK {α β : Type} [DecidableEq α] (k k2 : α) (v : β) (l : List (α × β)) :
    alookup k (setK k2 v l) = if k2 = k then some v else alookup k l := by
  by_cases h : k2 = k
  · simp [setK, h]
  · simp [setK, h, alookup_eraseK]
    intro h2
    exact absurd h2.symm h

theorem alookup_mapEntry (g : List Conn → List Conn) (r rid : RoomId)
    (ac : List (RoomId × List Conn)) :
    alookup r (ac.map (fun p => if p.1 = rid then (p.1, g p.2) else p)) =
      if r = rid then (alookup r ac).map g else alookup r ac := by
  induction ac with
  | nil => by_cases h : r = rid <;> simp [h]
  | cons p t ih =>
    obtain ⟨a, ms⟩ := p
    by_cases h1 : a = rid
    · subst h1
      by_cases h2 : a = r
      · subst h2
        simp [ih]
      · have h3 : ¬ r = a := fun h4 => h2 h4.symm
        simp [h2, h3, ih]
    · by_cases h2 : a = r
      · subst h2
        have h3 : ¬ a = rid := h1
        simp [h1, h3, ih]
      · simp [h1, h2, ih]

theorem alookup_discardMember (r rid : RoomId) (c : Conn)
    (ac : List (RoomId × List Conn)) :
    alookup r (discardMember rid c ac) =
      if r = rid then (alookup r ac).map (fun ms => ms.filter (fun x => !decide (x = c)))
      else alookup r ac :=
  alookup_mapEntry (fun ms => ms.filter (fun x => !decide (x = c))) r rid ac

theorem alookup_addMember (r rid : RoomId) (c : Conn)
    (ac : List (RoomId × List Conn)) :
    alookup r (addMember rid c ac) =
      if r = rid then (alookup r ac).map (addToSet c) else alookup r ac :=
  alookup_mapEntry (addToSet c) r rid ac

theorem alookup_ensureRoom (r rid : RoomId) (ac : List (RoomId × List Conn)) :
    alookup r (ensureRoom rid ac) =
      if r = rid then some ((alookup rid ac).getD []) else alookup r ac := by
  unfold ensureRoom
  cases h : alookup rid ac with
  | none =>
    by_cases h2 : r = rid <;> simp_all
    exact fun h3 => absurd h3.symm h2
  | some ms =>
    by_cases h2 : r = rid <;> simp_all

theorem alookup_dropIfEmpty (r rid : RoomId) (ac : List (RoomId × List Conn)) :
    alookup r (dropIfEmpty rid ac) =
      if alookup rid ac = some [] ∧ r = rid then none else alookup r ac := by
  unfold dropIfEmpty
  by_cases h : alookup rid ac = some []
  · by_cases h2 : r = rid <;> simp_all [alookup_eraseK]
  · simp [h]

theorem mem_addToSet (x c : Conn) (ms : List Conn) :
    x ∈ addToSet c ms ↔ x = c ∨ x ∈ ms := by
  unfold addToSet
  by_cases h : c ∈ ms
  · simp only [if_pos h]
    constructor
    · exact fun h2 => Or.inr h2
    · rintro (rfl | h2)
      · exact h
      · exact h2
  · simp only [if_neg h, List.mem_append, List.mem_singleton]
    tauto

theorem mapfst_discardMember (rid : RoomId) (c : Conn) (ac : List (RoomId × List Conn)) :
    (discardMember rid c ac).map Prod.fst = ac.map Prod.fst := by
  induction ac with
  | nil => rfl
  | cons p t ih =>
    by_cases h : p.1 = rid <;> simp_all [discardMember]

theorem mapfst_addMember (rid : RoomId) (c : Conn) (ac : List (RoomId × List Conn)) :
    (addMember rid c ac).map Prod.fst = ac.map Prod.fst := by
  induction ac with
  | nil => rfl
  | cons p t ih =>
    by_cases h : p.1 = rid <;> simp_all [addMember]

theorem nodup_mapfst_eraseK {α β : Type} [DecidableEq α] (k : α) (l : List (α × β))
    (h : (l.map Prod.fst).Nodup) : ((eraseK k l).map Prod.fst).Nodup := by
  have hsub : List.Sublist ((eraseK k l).map Prod.fst) (l.map Prod.fst) :=
    List.Sublist.map Prod.fst (List.filter_sublist l)
  exact hsub.nodup h

theorem nodup_mapfst_dropIfEmpty (rid : RoomId) (ac : List (RoomId × List Conn))
    (h : (ac.map Prod.fst).Nodup) : ((dropIfEmpty rid ac).map Prod.fst).Nodup := by
  unfold dropIfEmpty
  by_cases h2 : alookup rid ac = some []
  · simpa [h2] using nodup_mapfst_eraseK rid ac h
  · simpa [h2] using h

/-- The state cleanup performed by ConnectionManager.disconnect once the
websocket is known to be tracked in room rid (app.py lines 104-124):
discard from the room set if the room is registered, delete the room if it
became empty, then unconditionally remove the user_rooms and user_info
entries.  The deferred user_left broadcast is issued by the caller. -/
def discStep (st : ManagerState) (ws : Conn) (rid : RoomId) : ManagerState :=
  { active_connections :=
      if (alookup rid st.active_connections).isSome then
        dropIfEmpty rid (discardMember rid ws st.active_connections)
      else st.active_connections,
    user_rooms := eraseK ws st.user_rooms,
    user_info := eraseK ws st.user_info }

/-- One iteration of broadcast_to_room's cleanup loop (app.py lines 150-153)
for each connection whose send failed: discard it from the room set, then
run the disconnect path discF on it; the events of all the triggered
disconnects are concatenated. -/
def cleanupLoop (discF : ManagerState → Conn → ManagerState × List Event)
    (rid : RoomId) : ManagerState → List Conn → ManagerState × List Event
  | st, [] => (st, [])
  | st, c :: rest =>
    let st1 : ManagerState :=
      { st with active_connections := discardMember rid c st.active_connections }
    let r1 := discF st1 c
    let r2 := cleanupLoop discF rid r1.1 rest
    (r2.1, r1.2 ++ r2.2)

/-- Body of broadcast_to_room (app.py lines 131-155), parameterized by the
disconnect path used to clean up members whose send failed.  Members other
than exclude receive the message; those in dead raise on send and are
collected and cleaned up afterwards. -/
def bcastAux (dead : List Conn)
    (discF : ManagerState → Conn → ManagerState × List Event)
    (st : ManagerState) (rid : RoomId) (message : OutMsg) (exclude : Option Conn) :
    ManagerState × List Event :=
  match alookup rid st.active_connections with
  | none => (st, [])
  | some members =>
    let recipients := members.filter (fun c => !decide (some c = exclude))
    let delivered := recipients.filter (fun c => !decide (c ∈ dead))
    let disconnected := recipients.filter (fun c => decide (c ∈ dead))
    let res := cleanupLoop discF rid st disconnected
    (res.1, delivered.map (fun c => (c, message)) ++ res.2)

/-- The pair of mutually recursive operations of the ConnectionManager. -/
structure Engine where
  disc : ManagerState → Conn → ManagerState × List Event
  bcast : ManagerState → RoomId → OutMsg → Option Conn → ManagerState × List Event

/-- Fuel-indexed construction of disconnect and broadcast_to_room.  The
fuel bounds the depth of the cascade disconnect -> deferred user_left
broadcast -> failed send -> disconnect; out of fuel the operations are the
identity.  disconnect (app.py lines 92-129): no-op for an untracked
websocket, otherwise the discStep cleanup followed, when the room was
registered and a user_info record existed, by the deferred user_left
broadcast excluding the departed websocket. -/
def mkEngine (dead : List Conn) : Nat → Engine
  | 0 => ⟨fun st _ => (st, []), fun st _ _ _ => (st, [])⟩
  | fuel + 1 =>
    let prev := mkEngine dead fuel
    let disc : ManagerState → Conn → ManagerState × List Event := fun st ws =>
      match alookup ws st.user_rooms with
      | none => (st, [])
      | some rid =>
        match alookup ws st.user_info, (alookup rid st.active_connections).isSome with
        | some u, true =>
            prev.bcast (discStep st ws rid) rid (OutMsg.user_left u) (some ws)
        | _, _ => (discStep st ws rid, [])
    ⟨disc, fun st rid message exclude => bcastAux dead disc st rid message exclude⟩

/-- ConnectionManager.disconnect. -/
def disconnect (dead : List Conn) (fuel : Nat) (st : ManagerState) (ws : Conn) :
    ManagerState × List Event :=
  (mkEngine dead fuel).disc st ws

/-- ConnectionManager.broadcast_to_room. -/
def broadcast_to_room (dead : List Conn) (fuel : Nat) (st : ManagerState)
    (rid : RoomId) (message : OutMsg) (exclude : Option Conn) :
    ManagerState × List Event :=
  (mkEngine dead fuel).bcast st rid message exclude

/-- ConnectionManager.send_to_user (app.py lines 157-164): deliver, or on a
send failure run the disconnect path on the recipient. -/
def send_to_user (dead : List Conn) (fuel : Nat) (st : ManagerState) (ws : Conn)
    (message : OutMsg) : ManagerState × List Event :=
  if ws ∈ dead then disconnect dead fuel st ws else (st, [(ws, message)])

/-- The registry and index updates of ConnectionManager.connect (app.py
lines 51-67): ensure the room exists, store user_rooms and user_info, and
add the websocket to the room's member set. -/
def connectState (st : ManagerState) (ws : Conn) (room_id : RoomId)
    (user_data : UserData) : ManagerState :=
  ⟨addMember room_id ws (ensureRoom room_id st.active_connections),
    setK ws room_id st.user_rooms, setK ws user_data st.user_info⟩

/-- The existing_participants snapshot of connect (app.py lines 60-64):
the user_info records of the room's members, captured after the user_info
store but before the new websocket is added to the member set. -/
def connectRoster (st : ManagerState) (ws : Conn) (room_id : RoomId)
    (user_data : UserData) : List UserData :=
  ((alookup room_id (ensureRoom room_id st.active_connections)).getD []).filterMap
    (fun c => alookup c (setK ws user_data st.user_info))

/-- ConnectionManager.connect (app.py lines 45-90), after a successful
accept: perform the connectState bookkeeping, send room_joined carrying
the connectRoster snapshot to the new user, and if there were existing
participants broadcast user_joined to them, excluding the new websocket. -/
def connect (dead : List Conn) (fuel : Nat) (st : ManagerState) (ws : Conn)
    (room_id : RoomId) (user_data : UserData) : ManagerState × List Event :=
  if (connectRoster st ws room_id user_data).isEmpty then
    send_to_user dead fuel (connectState st ws room_id user_data) ws
      (OutMsg.room_joined room_id user_data.id (connectRoster st ws room_id user_data)
        "vercel")
  else
    let r1 := send_to_user dead fuel (connectState st ws room_id user_data) ws
      (OutMsg.room_joined room_id user_data.id (connectRoster st ws room_id user_data)
        "vercel")
    let r2 := broadcast_to_room dead fuel r1.1 room_id
        (OutMsg.user_joined user_data room_id) (some ws)
    (r2.1, r1.2 ++ r2.2)

/-- handle_webrtc_message (app.py lines 305-336): augment with sender info;
with a truthy target, forward to the first room member whose user id
matches, dropping the message silently when none matches; without a
target, broadcast to the room excluding the sender.  A missing user_info
record for the sender raises a KeyError that the handler catches, leaving
everything unchanged. -/
def handle_webrtc_message (dead : List Conn) (fuel : Nat) (st : ManagerState)
    (ws : Conn) (rid : RoomId) (m : InMsg) : ManagerState × List Event :=
  match alookup ws st.user_info with
  | none => (st, [])
  | some sender_info =>
    if m.target.getD "" ≠ "" then
      match ((alookup rid st.active_connections).getD []).find?
          (fun c => match alookup c st.user_info with
            | some uc => decide (uc.id = m.target.getD "")
            | none => false) with
      | some target_ws =>
          send_to_user dead fuel st target_ws
            (OutMsg.webrtc m sender_info.id sender_info.name "vercel")
      | none => (st, [])
    else
      broadcast_to_room dead fuel st rid
        (OutMsg.webrtc m sender_info.id sender_info.name "vercel") (some ws)

/-- handle_media_state (app.py lines 338-355): broadcast the wrapped media
state to the room excluding the sender; audio/video flags default to
true.  A missing sender record raises and is caught, changing nothing. -/
def handle_media_state (dead : List Conn) (fuel : Nat) (st : ManagerState)
    (ws : Conn) (rid : RoomId) (m : InMsg) : ManagerState × List Event :=
  match alookup ws st.user_info with
  | none => (st, [])
  | some sender_info =>
    broadcast_to_room dead fuel st rid
      (OutMsg.media_state sender_info (m.audio_enabled.getD true)
        (m.video_enabled.getD true) "vercel") (some ws)

/-- handle_chat_message (app.py lines 357-374): broadcast the wrapped chat
message to the whole room with no exclusion.  A missing "message" field
raises a KeyError inside the handler which is caught and only logged, so
nothing is sent and the state is unchanged; likewise for a missing sender
record. -/
def handle_chat_message (dead : List Conn) (fuel : Nat) (st : ManagerState)
    (ws : Conn) (rid : RoomId) (now : String) (m : InMsg) :
    ManagerState × List Event :=
  match alookup ws st.user_info with
  | none => (st, [])
  | some sender_info =>
    match m.message with
    | none => (st, [])
    | some text =>
      broadcast_to_room dead fuel st rid
        (OutMsg.chat sender_info text now "vercel") none

/-- One inbound websocket frame: either text that fails json.loads, or a
parsed JSON object. -/
inductive Frame where
  | invalidJson
  | valid (m : InMsg)
deriving DecidableEq

/-- One iteration of the receive loop of websocket_endpoint (app.py lines
266-296): invalid JSON is answered with an error message to the sender;
otherwise the message is dispatched on its type, with ping answered by
pong and unknown types dropped. -/
def handle_frame (dead : List Conn) (fuel : Nat) (st : ManagerState) (ws : Conn)
    (rid : RoomId) (now : String) : Frame → ManagerState × List Event
  | Frame.invalidJson =>
      send_to_user dead fuel st ws (OutMsg.error "Invalid JSON format")
  | Frame.valid m =>
    if m.type?.getD "unknown" = "offer" ∨ m.type?.getD "unknown" = "answer" ∨
        m.type?.getD "unknown" = "ice-candidate" then
      handle_webrtc_message dead fuel st ws rid m
    else if m.type?.getD "unknown" = "media-state" then
      handle_media_state dead fuel st ws rid m
    else if m.type?.getD "unknown" = "chat" then
      handle_chat_message dead fuel st ws rid now m
    else if m.type?.getD "unknown" = "ping" then
      send_to_user dead fuel st ws OutMsg.pong
    else
      (st, [])

/-- An operation on the shared ConnectionManager state, carrying the set of
connections whose sends fail during it and a fuel budget for the
failure-cleanup cascade. -/
inductive Op where
  | opConnect (dead : List Conn) (fuel : Nat) (ws : Conn) (rid : RoomId) (u : UserData)
  | opDisconnect (dead : List Conn) (fuel : Nat) (ws : Conn)
  | opBroadcast (dead : List Conn) (fuel : Nat) (rid : RoomId) (message : OutMsg)
      (exclude : Option Conn)
deriving DecidableEq

/-- Apply one operation.  connect is only ever invoked by
websocket_endpoint on a freshly accepted WebSocket object, so a websocket
that is still tracked is never re-connected; the guard encodes that
caller discipline. -/
def applyOp (st : ManagerState) : Op → ManagerState
  | Op.opConnect dead fuel ws rid u =>
      if (alookup ws st.user_rooms).isSome then st
      else (connect dead fuel st ws rid u).1
  | Op.opDisconnect dead fuel ws => (disconnect dead fuel st ws).1
  | Op.opBroadcast dead fuel rid message exclude =>
      (broadcast_to_room dead fuel st rid message exclude).1

/-- The state of a freshly constructed ConnectionManager. -/
def initState : ManagerState := ⟨[], [], []⟩

/-- The state after a sequence of operations from startup. -/
def run (ops : List Op) : ManagerState := ops.foldl applyOp initState

/-- The Participant records of a room's current members, in member order,
as computed by the roster snapshot in connect. -/
def rosterOf (st : ManagerState) (rid : RoomId) : List UserData :=
  (membersOf st rid).filterMap (fun c => alookup c st.user_info)

theorem disconnect_zero (dead : List Conn) (st : ManagerState) (ws : Conn) :
    disconnect dead 0 st ws = (st, []) := rfl

theorem broadcast_zero (dead : List Conn) (st : ManagerState) (rid : RoomId)
    (message : OutMsg) (exclude : Option Conn) :
    broadcast_to_room dead 0 st rid message exclude = (st, []) := rfl

theorem broadcast_succ (dead : List Conn) (fuel : Nat) (st : ManagerState)
    (rid : RoomId) (message : OutMsg) (exclude : Option Conn) :
    broadcast_to_room dead (fuel + 1) st rid message exclude =
      bcastAux dead (fun s c => disconnect dead (fuel + 1) s c) st rid message exclude :=
  rfl

theorem disconnect_succ_untracked (dead : List Conn) (fuel : Nat) (st : ManagerState)
    (ws : Conn) (h : alookup ws st.user_rooms = none) :
    disconnect dead (fuel + 1) st ws = (st, []) := by
  unfold disconnect mkEngine
  simp [h]

theorem disconnect_succ_full (dead : List Conn) (fuel : Nat) (st : ManagerState)
    (ws : Conn) (rid : RoomId) (u : UserData)
    (h1 : alookup ws st.user_rooms = some rid)
    (h2 : alookup ws st.user_info = some u)
    (h3 : (alookup rid st.active_connections).isSome = true) :
    disconnect dead (fuel + 1) st ws =
      broadcast_to_room dead fuel (discStep st ws rid) rid (OutMsg.user_left u)
        (some ws) := by
  unfold disconnect mkEngine broadcast_to_room
  simp [h1, h2, h3]

theorem disconnect_succ_noinfo (dead : List Conn) (fuel : Nat) (st : ManagerState)
    (ws : Conn) (rid : RoomId)
    (h1 : alookup ws st.user_rooms = some rid)
    (h2 : alookup ws st.user_info = none) :
    disconnect dead (fuel + 1) st ws = (discStep st ws rid, []) := by
  unfold disconnect mkEngine
  simp [h1, h2]

/-- The data-model invariant of the ConnectionManager: room keys are not
duplicated, a registered room is non-empty and each member is tracked in
user_rooms under that room, each user_rooms entry points back into its
room's member set, and user_rooms and user_info have the same domain. -/
def StateInv (st : ManagerState) : Prop :=
  (st.active_connections.map Prod.fst).Nodup ∧
  (∀ r ms, alookup r st.active_connections = some ms → ms ≠ [] ∧
      ∀ c, c ∈ ms → alookup c st.user_rooms = some r) ∧
  (∀ c r, alookup c st.user_rooms = some r →
      ∃ ms, alookup r st.active_connections = some ms ∧ c ∈ ms) ∧
  (∀ c, (alookup c st.user_rooms).isSome ↔ (alookup c st.user_info).isSome)

theorem alookup_eq_none {α β : Type} [DecidableEq α] (k : α) (l : List (α × β)) :
    alookup k l = none ↔ ∀ p ∈ l, p.1 ≠ k := by
  induction l with
  | nil => simp
  | cons p t ih =>
    obtain ⟨a, b⟩ := p
    by_cases h : a = k <;> simp [h, ih]

theorem filter_ne_idem (c : Conn) (l : List Conn) :
    (l.filter (fun x => !decide (x = c))).filter (fun x => !decide (x = c)) =
      l.filter (fun x => !decide (x = c)) := by
  apply List.filter_eq_self.mpr
  intro a ha
  exact (List.mem_filter.mp ha).2

theorem alookup_of_mem_nodup {α β : Type} [DecidableEq α] (k : α) (v : β)
    (l : List (α × β)) (hnd : (l.map Prod.fst).Nodup) (hm : (k, v) ∈ l) :
    alookup k l = some v := by
  induction l with
  | nil => cases hm
  | cons p t ih =>
    obtain ⟨a, b⟩ := p
    simp only [List.map_cons, List.nodup_cons] at hnd
    rcases List.mem_cons.mp hm with h | h
    · have h2 : k = a ∧ v = b := Prod.mk.injEq k v a b ▸ h
      obtain ⟨rfl, rfl⟩ := h2
      simp
    · have hk : ¬ a = k := by
        intro h2
        subst h2
        exact hnd.1 (List.mem_map_of_mem Prod.fst h)
      simp [hk, ih hnd.2 h]

theorem discardEntry_eq_self (rid : RoomId) (c : Conn) (p : RoomId × List Conn)
    (h : p.1 = rid → ¬ c ∈ p.2) :
    (if p.1 = rid then (p.1, p.2.filter (fun x => !decide (x = c))) else p) = p := by
  by_cases h1 : p.1 = rid
  · have hf : p.2.filter (fun x => !decide (x = c)) = p.2 := by
      apply List.filter_eq_self.mpr
      intro x hx
      simp only [Bool.not_eq_true', decide_eq_false_iff_not]
      intro h2
      exact h h1 (h2 ▸ hx)
    rw [if_pos h1, hf]
  · rw [if_neg h1]

theorem discardMember_eq_of_entries (rid : RoomId) (c : Conn)
    (ac : List (RoomId × List Conn)) (h : ∀ p ∈ ac, p.1 = rid → ¬ c ∈ p.2) :
    discardMember rid c ac = ac := by
  unfold discardMember
  rw [List.map_congr_left (fun p hp => discardEntry_eq_self rid c p (h p hp))]
  exact List.map_id ac

theorem discardMember_of_none (rid : RoomId) (c : Conn)
    (ac : List (RoomId × List Conn)) (h : alookup rid ac = none) :
    discardMember rid c ac = ac :=
  discardMember_eq_of_entries rid c ac (fun p hp h1 =>
    absurd h1 ((alookup_eq_none rid ac).mp h p hp))

theorem discardMember_eq_self (rid : RoomId) (c : Conn)
    (ac : List (RoomId × List Conn)) (hnd : (ac.map Prod.fst).Nodup)
    (h : ¬ c ∈ (alookup rid ac).getD []) : discardMember rid c ac = ac := by
  apply discardMember_eq_of_entries
  intro p hp h1 hc
  obtain ⟨a, ms⟩ := p
  subst h1
  have h2 : alookup a ac = some ms := alookup_of_mem_nodup a ms ac hnd hp
  rw [h2] at h
  exact h hc

theorem discardMember_discardMember (rid : RoomId) (c : Conn)
    (ac : List (RoomId × List Conn)) :
    discardMember rid c (discardMember rid c ac) = discardMember rid c ac := by
  apply discardMember_eq_of_entries
  intro p hp h1 hc
  unfold discardMember at hp
  rcases List.mem_map.mp hp with ⟨q, hq, hfq⟩
  by_cases h2 : q.1 = rid
  · rw [if_pos h2] at hfq
    have h3 : c ∈ q.2.filter (fun x => !decide (x = c)) := by
      have h4 : p.2 = q.2.filter (fun x => !decide (x = c)) := by
        rw [← hfq]
      exact h4 ▸ hc
    have h5 := (List.mem_filter.mp h3).2
    simp at h5
  · rw [if_neg h2] at hfq
    exact h2 (hfq ▸ h1)

theorem discStep_absorb (st : ManagerState) (ws : Conn) (rid : RoomId) :
    discStep { st with active_connections := discardMember rid ws st.active_connections }
        ws rid = discStep st ws rid := by
  unfold discStep
  dsimp only
  cases hl : alookup rid st.active_connections with
  | none =>
    rw [discardMember_of_none rid ws st.active_connections hl, hl]
    simp
  | some ms =>
    have h1 : alookup rid (discardMember rid ws st.active_connections) =
        some (ms.filter (fun x => !decide (x = ws))) := by
      rw [alookup_discardMember, if_pos rfl, hl]
      rfl
    rw [h1, discardMember_discardMember]
    simp

theorem mem_filter_ne (x c : Conn) (l : List Conn) :
    x ∈ l.filter (fun y => !decide (y = c)) ↔ x ∈ l ∧ x ≠ c := by
  simp [List.mem_filter]

theorem discStep_active_field (st : ManagerState) (ws : Conn) (rid : RoomId)
    (ms : List Conn) (hms : alookup rid st.active_connections = some ms) :
    (discStep st ws rid).active_connections =
      dropIfEmpty rid (discardMember rid ws st.active_connections) := by
  unfold discStep
  rw [hms]
  rfl

theorem discStep_ur (st : ManagerState) (ws : Conn) (rid : RoomId) :
    (discStep st ws rid).user_rooms = eraseK ws st.user_rooms := rfl

theorem discStep_ui (st : ManagerState) (ws : Conn) (rid : RoomId) :
    (discStep st ws rid).user_info = eraseK ws st.user_info := rfl

theorem discStep_inv (st : ManagerState) (ws : Conn) (rid : RoomId)
    (hInv : StateInv st) (hur : alookup ws st.user_rooms = some rid) :
    StateInv (discStep st ws rid) := by
  obtain ⟨hnd, hA, hB, hC⟩ := hInv
  obtain ⟨ms, hms, hwsmem⟩ := hB ws rid hur
  have hfield : (discStep st ws rid).active_connections =
      dropIfEmpty rid (discardMember rid ws st.active_connections) :=
    discStep_active_field st ws rid ms hms
  have hacL : ∀ r, alookup r (discStep st ws rid).active_connections =
      if r = rid then
        (if ms.filter (fun x => !decide (x = ws)) = [] then none
         else some (ms.filter (fun x => !decide (x = ws))))
      else alookup r st.active_connections := by
    intro r
    rw [hfield, alookup_dropIfEmpty,
      alookup_discardMember rid rid ws st.active_connections,
      alookup_discardMember r rid ws st.active_connections, hms]
    by_cases hr : r = rid
    · subst hr
      by_cases hemp : ms.filter (fun x => !decide (x = ws)) = [] <;>
        simp [hemp, hms]
    · simp [hr]
  refine ⟨?_, ?_, ?_, ?_⟩
  · rw [hfield]
    apply nodup_mapfst_dropIfEmpty
    rw [mapfst_discardMember]
    exact hnd
  · intro r ms2 h2
    rw [hacL r] at h2
    by_cases hr : r = rid
    · subst hr
      rw [if_pos rfl] at h2
      by_cases hemp : ms.filter (fun x => !decide (x = ws)) = []
      · rw [if_pos hemp] at h2
        cases h2
      · rw [if_neg hemp] at h2
        have heq2 : ms.filter (fun x => !decide (x = ws)) = ms2 := Option.some.inj h2
        refine ⟨?_, ?_⟩
        · rw [← heq2]
          exact hemp
        · intro c hc
          rw [discStep_ur, alookup_eraseK]
          have hcc := (mem_filter_ne c ws ms).mp (by rw [heq2]; exact hc)
          rw [if_neg hcc.2]
          exact (hA _ ms hms).2 c hcc.1
    · rw [if_neg hr] at h2
      obtain ⟨hne, hmem⟩ := hA r ms2 h2
      refine ⟨hne, ?_⟩
      intro c hc
      rw [discStep_ur, alookup_eraseK]
      have hcw : ¬ c = ws := by
        intro h3
        subst h3
        have h4 := hmem c hc
        rw [hur] at h4
        exact hr (Option.some.inj h4).symm
      rw [if_neg hcw]
      exact hmem c hc
  · intro c r h2
    rw [discStep_ur, alookup_eraseK] at h2
    by_cases hcw : c = ws
    · rw [if_pos hcw] at h2
      cases h2
    · rw [if_neg hcw] at h2
      obtain ⟨ms0, hms0, hcm⟩ := hB c r h2
      rw [hacL r]
      by_cases hr : r = rid
      · subst hr
        rw [if_pos rfl]
        rw [hms] at hms0
        have heq : ms = ms0 := Option.some.inj hms0
        have hcf : c ∈ ms.filter (fun x => !decide (x = ws)) :=
          (mem_filter_ne c ws ms).mpr ⟨by rw [heq]; exact hcm, hcw⟩
        have hemp : ¬ ms.filter (fun x => !decide (x = ws)) = [] :=
          List.ne_nil_of_mem hcf
        rw [if_neg hemp]
        exact ⟨ms.filter (fun x => !decide (x = ws)), rfl, hcf⟩
      · rw [if_neg hr]
        exact ⟨ms0, hms0, hcm⟩
  · intro c
    rw [discStep_ur, discStep_ui, alookup_eraseK, alookup_eraseK]
    by_cases hcw : c = ws
    · rw [if_pos hcw, if_pos hcw]
      exact Iff.rfl
    · rw [if_neg hcw, if_neg hcw]
      exact hC c

theorem disconnect_succ_noroom (dead : List Conn) (fuel : Nat) (st : ManagerState)
    (ws : Conn) (rid : RoomId) (u : UserData)
    (h1 : alookup ws st.user_rooms = some rid)
    (h2 : alookup ws st.user_info = some u)
    (h3 : (alookup rid st.active_connections).isSome = false) :
    disconnect dead (fuel + 1) st ws = (discStep st ws rid, []) := by
  unfold disconnect mkEngine
  simp [h1, h2, h3]

/-- Under the invariant, the redundant direct discard performed by the
broadcast cleanup loop before calling disconnect (app.py line 152) is
absorbed by the discard disconnect itself performs, so a cleanup step is
exactly a disconnect. -/
theorem cleanupStep_eq (dead : List Conn) (fuel : Nat) (st : ManagerState)
    (rid : RoomId) (c : Conn) (hInv : StateInv st) :
    disconnect dead (fuel + 1)
      { st with active_connections := discardMember rid c st.active_connections } c =
    disconnect dead (fuel + 1) st c := by
  obtain ⟨hnd, hA, hB, hC⟩ := hInv
  cases hur : alookup c st.user_rooms with
  | none =>
    have hno : ¬ c ∈ (alookup rid st.active_connections).getD [] := by
      cases hl : alookup rid st.active_connections with
      | none => simp
      | some ms =>
        intro hc
        have h2 := (hA rid ms hl).2 c hc
        rw [hur] at h2
        cases h2
    rw [discardMember_eq_self rid c st.active_connections hnd hno]
  | some rid0 =>
    by_cases hr : rid0 = rid
    · subst hr
      obtain ⟨ms, hms, hcm⟩ := hB c rid0 hur
      have hl2 : alookup rid0 (discardMember rid0 c st.active_connections) =
          some (ms.filter (fun x => !decide (x = c))) := by
        rw [alookup_discardMember, if_pos rfl, hms]
        rfl
      cases hui : alookup c st.user_info with
      | none =>
        rw [disconnect_succ_noinfo dead fuel
            { st with active_connections := discardMember rid0 c st.active_connections }
            c rid0 hur hui,
          disconnect_succ_noinfo dead fuel st c rid0 hur hui, discStep_absorb]
      | some u =>
        have hreg1 : (alookup rid0
            ({ st with active_connections :=
              discardMember rid0 c st.active_connections } :
                ManagerState).active_connections).isSome = true := by
          show (alookup rid0 (discardMember rid0 c st.active_connections)).isSome = true
          rw [hl2]
          rfl
        have hreg : (alookup rid0 st.active_connections).isSome = true := by
          rw [hms]
          rfl
        rw [disconnect_succ_full dead fuel
            { st with active_connections := discardMember rid0 c st.active_connections }
            c rid0 u hur hui hreg1,
          disconnect_succ_full dead fuel st c rid0 u hur hui hreg, discStep_absorb]
    · have hno : ¬ c ∈ (alookup rid st.active_connections).getD [] := by
        cases hl : alookup rid st.active_connections with
        | none => simp
        | some ms =>
          intro hc
          have h2 := (hA rid ms hl).2 c hc
          rw [hur] at h2
          exact hr (Option.some.inj h2.symm).symm
      rw [discardMember_eq_self rid c st.active_connections hnd hno]

/-- A connection that is absent from all three indices of the state. -/
def NotTracked (c : Conn) (st : ManagerState) : Prop :=
  alookup c st.user_rooms = none ∧ alookup c st.user_info = none ∧
    ∀ r, ¬ c ∈ membersOf st r

theorem membersOf_discStep_subset (st : ManagerState) (ws : Conn) (rid r : RoomId)
    (x : Conn) (hx : x ∈ membersOf (discStep st ws rid) r) : x ∈ membersOf st r := by
  unfold membersOf at hx ⊢
  cases hreg : alookup rid st.active_connections with
  | none =>
    have hfe : (discStep st ws rid).active_connections = st.active_connections := by
      unfold discStep
      rw [hreg]
      rfl
    rw [hfe] at hx
    exact hx
  | some ms =>
    have hfield := discStep_active_field st ws rid ms hreg
    rw [hfield, alookup_dropIfEmpty] at hx
    by_cases hcond :
        alookup rid (discardMember rid ws st.active_connections) = some [] ∧ r = rid
    · rw [if_pos hcond] at hx
      cases hx
    · rw [if_neg hcond, alookup_discardMember] at hx
      by_cases hr : r = rid
      · rw [if_pos hr] at hx
        subst hr
        rw [hreg] at hx
        have hx2 : x ∈ ms.filter (fun y => !decide (y = ws)) := hx
        rw [hreg]
        exact ((mem_filter_ne x ws ms).mp hx2).1
      · rw [if_neg hr] at hx
        exact hx

theorem discStep_notTracked (c : Conn) (st : ManagerState) (ws : Conn) (rid : RoomId)
    (h : NotTracked c st) : NotTracked c (discStep st ws rid) := by
  obtain ⟨h1, h2, h3⟩ := h
  refine ⟨?_, ?_, ?_⟩
  · rw [discStep_ur, alookup_eraseK]
    by_cases hcw : c = ws
    · rw [if_pos hcw]
    · rw [if_neg hcw]
      exact h1
  · rw [discStep_ui, alookup_eraseK]
    by_cases hcw : c = ws
    · rw [if_pos hcw]
    · rw [if_neg hcw]
      exact h2
  · intro r hc
    exact h3 r (membersOf_discStep_subset st ws rid r c hc)

theorem discard_notTracked (c : Conn) (st : ManagerState) (rid : RoomId) (x : Conn)
    (h : NotTracked c st) :
    NotTracked c
      { st with active_connections := discardMember rid x st.active_connections } := by
  obtain ⟨h1, h2, h3⟩ := h
  refine ⟨h1, h2, ?_⟩
  intro r hc
  apply h3 r
  unfold membersOf at hc ⊢
  have hc2 : c ∈ (alookup r (discardMember rid x st.active_connections)).getD [] := hc
  rw [alookup_discardMember] at hc2
  by_cases hr : r = rid
  · rw [if_pos hr] at hc2
    cases hl : alookup r st.active_connections with
    | none =>
      rw [hl] at hc2
      cases hc2
    | some ms =>
      rw [hl] at hc2
      exact ((mem_filter_ne c x ms).mp hc2).1
  · rw [if_neg hr] at hc2
    exact hc2

/-- No operation of the disconnect / broadcast family ever re-registers a
connection: a connection absent from all indices stays absent. -/
theorem engine_notTracked (dead : List Conn) (c : Conn) : ∀ fuel : Nat,
    (∀ st ws, NotTracked c st → NotTracked c (disconnect dead fuel st ws).1) ∧
    (∀ st rid message exclude, NotTracked c st →
      NotTracked c (broadcast_to_room dead fuel st rid message exclude).1) := by
  intro fuel
  induction fuel with
  | zero => exact ⟨fun st ws h => h, fun st rid m e h => h⟩
  | succ f ih =>
    have hD : ∀ st ws, NotTracked c st → NotTracked c (disconnect dead (f + 1) st ws).1 := by
      intro st ws h
      cases hur : alookup ws st.user_rooms with
      | none =>
        rw [disconnect_succ_untracked dead f st ws hur]
        exact h
      | some rid =>
        cases hui : alookup ws st.user_info with
        | none =>
          rw [disconnect_succ_noinfo dead f st ws rid hur hui]
          exact discStep_notTracked c st ws rid h
        | some u =>
          cases hreg : (alookup rid st.active_connections).isSome with
          | false =>
            rw [disconnect_succ_noroom dead f st ws rid u hur hui hreg]
            exact discStep_notTracked c st ws rid h
          | true =>
            rw [disconnect_succ_full dead f st ws rid u hur hui hreg]
            exact ih.2 (discStep st ws rid) rid (OutMsg.user_left u) (some ws)
              (discStep_notTracked c st ws rid h)
    have hcl : ∀ l st rid, NotTracked c st →
        NotTracked c (cleanupLoop (fun s x => disconnect dead (f + 1) s x) rid st l).1 := by
      intro l
      induction l with
      | nil => exact fun st rid h => h
      | cons x rest ihl =>
        intro st rid h
        exact ihl _ rid (hD _ x (discard_notTracked c st rid x h))
    refine ⟨hD, ?_⟩
    intro st rid m e h
    rw [broadcast_succ]
    unfold bcastAux
    cases hl : alookup rid st.active_connections with
    | none => exact h
    | some members => exact hcl _ st rid h

/-- disconnect and broadcast_to_room preserve the data-model invariant, at
every fuel budget. -/
theorem engine_inv (dead : List Conn) : ∀ fuel : Nat,
    (∀ st ws, StateInv st → StateInv (disconnect dead fuel st ws).1) ∧
    (∀ st rid message exclude, StateInv st →
      StateInv (broadcast_to_room dead fuel st rid message exclude).1) := by
  intro fuel
  induction fuel with
  | zero => exact ⟨fun st ws h => h, fun st rid m e h => h⟩
  | succ f ih =>
    have hD : ∀ st ws, StateInv st → StateInv (disconnect dead (f + 1) st ws).1 := by
      intro st ws h
      cases hur : alookup ws st.user_rooms with
      | none =>
        rw [disconnect_succ_untracked dead f st ws hur]
        exact h
      | some rid =>
        obtain ⟨ms, hms, hwm⟩ := h.2.2.1 ws rid hur
        have hreg : (alookup rid st.active_connections).isSome = true := by
          rw [hms]
          rfl
        have hui : (alookup ws st.user_info).isSome = true := (h.2.2.2 ws).mp (by
          rw [hur]
          rfl)
        cases hui2 : alookup ws st.user_info with
        | none =>
          rw [hui2] at hui
          cases hui
        | some u =>
          rw [disconnect_succ_full dead f st ws rid u hur hui2 hreg]
          exact ih.2 (discStep st ws rid) rid (OutMsg.user_left u) (some ws)
            (discStep_inv st ws rid h hur)
    have hcl : ∀ l st rid, StateInv st →
        StateInv (cleanupLoop (fun s y => disconnect dead (f + 1) s y) rid st l).1 := by
      intro l
      induction l with
      | nil => exact fun st rid h => h
      | cons x rest ihl =>
        intro st rid h
        have hstep := cleanupStep_eq dead f st rid x h
        have hred : (cleanupLoop (fun s y => disconnect dead (f + 1) s y) rid st
              (x :: rest)).1
            = (cleanupLoop (fun s y => disconnect dead (f + 1) s y) rid
                (disconnect dead (f + 1)
                  { st with active_connections :=
                    discardMember rid x st.active_connections } x).1
                rest).1 := rfl
        rw [hred, hstep]
        exact ihl _ rid (hD st x h)
    refine ⟨hD, ?_⟩
    intro st rid m e h
    rw [broadcast_succ]
    unfold bcastAux
    cases hl : alookup rid st.active_connections with
    | none => exact h
    | some members => exact hcl _ st rid h

theorem disconnect_inv (dead : List Conn) (fuel : Nat) (st : ManagerState) (ws : Conn)
    (h : StateInv st) : StateInv (disconnect dead fuel st ws).1 :=
  (engine_inv dead fuel).1 st ws h

theorem broadcast_inv (dead : List Conn) (fuel : Nat) (st : ManagerState)
    (rid : RoomId) (message : OutMsg) (exclude : Option Conn) (h : StateInv st) :
    StateInv (broadcast_to_room dead fuel st rid message exclude).1 :=
  (engine_inv dead fuel).2 st rid message exclude h

theorem send_inv (dead : List Conn) (fuel : Nat) (st : ManagerState) (ws : Conn)
    (message : OutMsg) (h : StateInv st) :
    StateInv (send_to_user dead fuel st ws message).1 := by
  unfold send_to_user
  by_cases hd : ws ∈ dead
  · rw [if_pos hd]
    exact disconnect_inv dead fuel st ws h
  · rw [if_neg hd]
    exact h

theorem connectState_inv (st : ManagerState) (ws : Conn) (rid : RoomId) (u : UserData)
    (hInv : StateInv st) (hfresh : alookup ws st.user_rooms = none) :
    StateInv (connectState st ws rid u) := by
  obtain ⟨hnd, hA, hB, hC⟩ := hInv
  have hacL : ∀ r, alookup r (connectState st ws rid u).active_connections =
      if r = rid then some (addToSet ws ((alookup rid st.active_connections).getD []))
      else alookup r st.active_connections := by
    intro r
    show alookup r (addMember rid ws (ensureRoom rid st.active_connections)) = _
    rw [alookup_addMember, alookup_ensureRoom]
    by_cases hr : r = rid <;> simp [hr]
  have hurL : ∀ c, alookup c (connectState st ws rid u).user_rooms =
      if ws = c then some rid else alookup c st.user_rooms := by
    intro c
    show alookup c (setK ws rid st.user_rooms) = _
    rw [alookup_setK]
  have huiL : ∀ c, alookup c (connectState st ws rid u).user_info =
      if ws = c then some u else alookup c st.user_info := by
    intro c
    show alookup c (setK ws u st.user_info) = _
    rw [alookup_setK]
  have hwsnot : ∀ r ms0, alookup r st.active_connections = some ms0 → ¬ ws ∈ ms0 := by
    intro r ms0 h0 hmem
    have h2 := (hA r ms0 h0).2 ws hmem
    rw [hfresh] at h2
    cases h2
  refine ⟨?_, ?_, ?_, ?_⟩
  · show ((addMember rid ws (ensureRoom rid st.active_connections)).map Prod.fst).Nodup
    rw [mapfst_addMember]
    unfold ensureRoom
    cases hreg : (alookup rid st.active_connections).isSome with
    | true =>
      rw [if_pos rfl]
      exact hnd
    | false =>
      rw [if_neg Bool.false_ne_true]
      simp only [List.map_cons, List.nodup_cons]
      refine ⟨?_, hnd⟩
      intro hmem
      rcases List.mem_map.mp hmem with ⟨p, hp, hp2⟩
      have hnone : alookup rid st.active_connections = none :=
        Option.not_isSome_iff_eq_none.mp (by rw [hreg]; exact Bool.false_ne_true)
      exact (alookup_eq_none rid st.active_connections).mp hnone p hp hp2
  · intro r ms2 h2
    rw [hacL r] at h2
    by_cases hr : r = rid
    · rw [if_pos hr] at h2
      have heq := Option.some.inj h2
      refine ⟨?_, ?_⟩
      · rw [← heq]
        exact List.ne_nil_of_mem ((mem_addToSet ws ws _).mpr (Or.inl rfl))
      · intro c hc
        rw [hurL c]
        rcases (mem_addToSet c ws _).mp (by rw [heq]; exact hc) with hcw | hcm
        · rw [if_pos hcw.symm, hr]
        · cases hbase : alookup rid st.active_connections with
          | none =>
            rw [hbase] at hcm
            cases hcm
          | some ms0 =>
            rw [hbase] at hcm
            have h3 := (hA rid ms0 hbase).2 c hcm
            have hcw : ¬ ws = c := by
              intro h4
              exact hwsnot rid ms0 hbase (h4 ▸ hcm)
            rw [if_neg hcw, hr]
            exact h3
    · rw [if_neg hr] at h2
      obtain ⟨hne, hmem⟩ := hA r ms2 h2
      refine ⟨hne, ?_⟩
      intro c hc
      rw [hurL c]
      have hcw : ¬ ws = c := by
        intro h4
        have h5 := hmem c hc
        rw [← h4, hfresh] at h5
        cases h5
      rw [if_neg hcw]
      exact hmem c hc
  · intro c r h2
    rw [hurL c] at h2
    rw [hacL r]
    by_cases hcw : ws = c
    · rw [if_pos hcw] at h2
      have hr : rid = r := Option.some.inj h2
      rw [if_pos hr.symm]
      refine ⟨addToSet ws ((alookup rid st.active_connections).getD []), rfl, ?_⟩
      rw [← hcw]
      exact (mem_addToSet ws ws _).mpr (Or.inl rfl)
    · rw [if_neg hcw] at h2
      obtain ⟨ms0, hms0, hcm⟩ := hB c r h2
      by_cases hr : r = rid
      · rw [if_pos hr]
        refine ⟨addToSet ws ((alookup rid st.active_connections).getD []), rfl, ?_⟩
        apply (mem_addToSet c ws _).mpr
        right
        rw [← hr, hms0]
        exact hcm
      · rw [if_neg hr]
        exact ⟨ms0, hms0, hcm⟩
  · intro c
    rw [hurL c, huiL c]
    by_cases hcw : ws = c
    · rw [if_pos hcw, if_pos hcw]
      exact Iff.rfl
    · rw [if_neg hcw, if_neg hcw]
      exact hC c

theorem connect_inv (dead : List Conn) (fuel : Nat) (st : ManagerState) (ws : Conn)
    (rid : RoomId) (u : UserData) (hInv : StateInv st)
    (hfresh : alookup ws st.user_rooms = none) :
    StateInv (connect dead fuel st ws rid u).1 := by
  have h3 := connectState_inv st ws rid u hInv hfresh
  unfold connect
  by_cases hemp : (connectRoster st ws rid u).isEmpty
  · rw [if_pos hemp]
    exact send_inv dead fuel _ ws _ h3
  · rw [if_neg hemp]
    show StateInv (broadcast_to_room dead fuel
      (send_to_user dead fuel (connectState st ws rid u) ws
        (OutMsg.room_joined rid u.id (connectRoster st ws rid u) "vercel")).1
      rid (OutMsg.user_joined u rid) (some ws)).1
    exact broadcast_inv dead fuel _ rid _ _ (send_inv dead fuel _ ws _ h3)

theorem applyOp_inv (st : ManagerState) (op : Op) (h : StateInv st) :
    StateInv (applyOp st op) := by
  cases op with
  | opConnect dead fuel ws rid u =>
    show StateInv (if (alookup ws st.user_rooms).isSome then st
      else (connect dead fuel st ws rid u).1)
    by_cases htr : (alookup ws st.user_rooms).isSome
    · rw [if_pos htr]
      exact h
    · rw [if_neg htr]
      exact connect_inv dead fuel st ws rid u h (Option.not_isSome_iff_eq_none.mp htr)
  | opDisconnect dead fuel ws => exact disconnect_inv dead fuel st ws h
  | opBroadcast dead fuel rid message exclude =>
    exact broadcast_inv dead fuel st rid message exclude h

theorem initState_inv : StateInv initState := by
  refine ⟨List.nodup_nil, ?_, ?_, ?_⟩
  · intro r ms h
    cases h
  · intro c r h
    cases h
  · intro c
    exact Iff.rfl

/-- Every state reachable by a sequence of operations satisfies the
data-model invariant. -/
theorem run_inv (ops : List Op) : StateInv (run ops) := by
  unfold run
  induction ops using List.reverseRecOn with
  | nil => exact initState_inv
  | append_singleton l op ih =>
    rw [List.foldl_append]
    exact applyOp_inv _ op ih

theorem disconnect_untracked_eq (dead : List Conn) (fuel : Nat) (st : ManagerState)
    (ws : Conn) (h : alookup ws st.user_rooms = none) :
    disconnect dead fuel st ws = (st, []) := by
  cases fuel with
  | zero => rfl
  | succ f => exact disconnect_succ_untracked dead f st ws h

theorem send_nodead (fuel : Nat) (st : ManagerState) (ws : Conn) (message : OutMsg) :
    send_to_user [] fuel st ws message = (st, [(ws, message)]) := by
  unfold send_to_user
  rw [if_neg (List.not_mem_nil ws)]

theorem broadcast_noroom (dead : List Conn) (fuel : Nat) (st : ManagerState)
    (rid : RoomId) (message : OutMsg) (exclude : Option Conn)
    (h : alookup rid st.active_connections = none) :
    broadcast_to_room dead (fuel + 1) st rid message exclude = (st, []) := by
  rw [broadcast_succ]
  unfold bcastAux
  rw [h]

theorem broadcast_nodead (fuel : Nat) (st : ManagerState) (rid : RoomId)
    (message : OutMsg) (exclude : Option Conn) (ms : List Conn)
    (h : alookup rid st.active_connections = some ms) :
    broadcast_to_room [] (fuel + 1) st rid message exclude =
      (st, (ms.filter (fun c => !decide (some c = exclude))).map
        (fun c => (c, message))) := by
  rw [broadcast_succ]
  unfold bcastAux
  rw [h]
  simp [cleanupLoop]

theorem connectRoster_eq (st : ManagerState) (ws : Conn) (rid : RoomId) (u : UserData)
    (hInv : StateInv st) (hfresh : alookup ws st.user_rooms = none) :
    connectRoster st ws rid u = rosterOf st rid := by
  unfold connectRoster rosterOf membersOf
  rw [alookup_ensureRoom, if_pos rfl]
  show ((alookup rid st.active_connections).getD []).filterMap
      (fun c => alookup c (setK ws u st.user_info)) = _
  apply List.filterMap_congr
  intro c hc
  rw [alookup_setK]
  have hcw : ¬ ws = c := by
    intro h2
    subst h2
    cases hbase : alookup rid st.active_connections with
    | none =>
      rw [hbase] at hc
      cases hc
    | some ms0 =>
      rw [hbase] at hc
      have h3 := (hInv.2.1 rid ms0 hbase).2 ws hc
      rw [hfresh] at h3
      cases h3
  rw [if_neg hcw]

/-- C6: the leave operation is idempotent: for every state, dead set and
fuel budget, invoking disconnect on a connection that is no longer tracked
in user_rooms leaves the entire state (room registry, room bindings and
participant records) unchanged and sends no message. -/
theorem c6_leave_idempotent (dead : List Conn) (fuel : Nat) (st : ManagerState)
    (ws : Conn) (h : alookup ws st.user_rooms = none) :
    disconnect dead fuel st ws = (st, []) :=
  disconnect_untracked_eq dead fuel st ws h

theorem c6_witness :
    alookup 2 ((⟨[("r1", [1])], [(1, "r1")],
        [(1, UserData.mk "ua" "A" "t1" "vercel")]⟩ : ManagerState)).user_rooms = none ∧
    disconnect [] 5 (⟨[("r1", [1])], [(1, "r1")],
        [(1, UserData.mk "ua" "A" "t1" "vercel")]⟩ : ManagerState) 2 =
      ((⟨[("r1", [1])], [(1, "r1")], [(1, UserData.mk "ua" "A" "t1" "vercel")]⟩ :
        ManagerState), []) :=
  ⟨by decide, c6_leave_idempotent [] 5 _ 2 (by decide)⟩

/-- C5 counterexample: a parsed chat frame whose required message field is
missing is not answered with an error-typed message: the handler catches
the KeyError, only logs it, and sends nothing at all (the claim asserts an
error reply for every malformed frame).  The state is also unchanged. -/
theorem c5_counterexample :
    (handle_frame [] 5 (⟨[("r1", [1, 2])], [(1, "r1"), (2, "r1")],
        [(1, UserData.mk "ua" "A" "t1" "vercel"),
         (2, UserData.mk "ub" "B" "t2" "vercel")]⟩ : ManagerState) 1 "r1" "t9"
      (Frame.valid (InMsg.mk (some "chat") none none none none ""))).2 = [] ∧
    (handle_frame [] 5 (⟨[("r1", [1, 2])], [(1, "r1"), (2, "r1")],
        [(1, UserData.mk "ua" "A" "t1" "vercel"),
         (2, UserData.mk "ub" "B" "t2" "vercel")]⟩ : ManagerState) 1 "r1" "t9"
      (Frame.valid (InMsg.mk (some "chat") none none none none ""))).1 =
      (⟨[("r1", [1, 2])], [(1, "r1"), (2, "r1")],
        [(1, UserData.mk "ua" "A" "t1" "vercel"),
         (2, UserData.mk "ub" "B" "t2" "vercel")]⟩ : ManagerState) := by
  constructor
  · decide
  · decide

/-- C5 (amended): a frame that is not valid JSON is answered with an
error-typed message to the offending sender, with the room state unchanged
and the receive loop continuing; a parsed chat frame missing its required
message field is dropped inside the handler — the caught KeyError is only
logged, no reply of any kind is sent, and the state is unchanged. -/
theorem c5_malformed_input :
    (∀ fuel st ws rid now, handle_frame [] fuel st ws rid now Frame.invalidJson =
        (st, [(ws, OutMsg.error "Invalid JSON format")])) ∧
    (∀ fuel st ws rid now (m : InMsg), m.type? = some "chat" → m.message = none →
        handle_frame [] fuel st ws rid now (Frame.valid m) = (st, [])) := by
  constructor
  · intro fuel st ws rid now
    exact send_nodead fuel st ws (OutMsg.error "Invalid JSON format")
  · intro fuel st ws rid now m hty hmsg
    have hstep : handle_frame [] fuel st ws rid now (Frame.valid m) =
        handle_chat_message [] fuel st ws rid now m := by
      simp only [handle_frame]
      rw [hty, if_neg (by decide), if_neg (by decide), if_pos (by decide)]
    rw [hstep]
    unfold handle_chat_message
    cases hui : alookup ws st.user_info with
    | none => rfl
    | some u => rw [hmsg]

theorem c5_witness :
    handle_frame [] 3 (⟨[("r1", [1])], [(1, "r1")],
        [(1, UserData.mk "ua" "A" "t1" "vercel")]⟩ : ManagerState) 1 "r1" "t9"
        Frame.invalidJson =
      ((⟨[("r1", [1])], [(1, "r1")], [(1, UserData.mk "ua" "A" "t1" "vercel")]⟩ :
          ManagerState), [(1, OutMsg.error "Invalid JSON format")]) ∧
    handle_frame [] 3 (⟨[("r1", [1])], [(1, "r1")],
        [(1, UserData.mk "ua" "A" "t1" "vercel")]⟩ : ManagerState) 1 "r1" "t9"
        (Frame.valid (InMsg.mk (some "chat") none none none none "")) =
      ((⟨[("r1", [1])], [(1, "r1")], [(1, UserData.mk "ua" "A" "t1" "vercel")]⟩ :
          ManagerState), []) :=
  ⟨c5_malformed_input.1 3 _ 1 "r1" "t9",
   c5_malformed_input.2 3 _ 1 "r1" "t9" _ rfl rfl⟩

/-- C7: an offer, answer or ice-candidate message carrying a target id
that matches no participant of the sender's room is dropped with the miss
only logged: no message of any kind is sent to the sender or to any room
member, and the state is unchanged. -/
theorem c7_unicast_miss (dead : List Conn) (fuel : Nat) (st : ManagerState)
    (ws : Conn) (rid : RoomId) (now : String) (m : InMsg) (u : UserData) (tgt : String)
    (hui : alookup ws st.user_info = some u)
    (hty : m.type? = some "offer" ∨ m.type? = some "answer" ∨
      m.type? = some "ice-candidate")
    (htgt : m.target = some tgt) (hne : tgt ≠ "")
    (hmiss : ∀ c ∈ (alookup rid st.active_connections).getD [],
      (alookup c st.user_info).map UserData.id ≠ some tgt) :
    handle_frame dead fuel st ws rid now (Frame.valid m) = (st, []) := by
  have hstep : handle_frame dead fuel st ws rid now (Frame.valid m) =
      handle_webrtc_message dead fuel st ws rid m := by
    simp only [handle_frame]
    rcases hty with h | h | h <;> rw [h, if_pos (by decide)]
  rw [hstep]
  have hred : handle_webrtc_message dead fuel st ws rid m =
      (if m.target.getD "" ≠ "" then
        match ((alookup rid st.active_connections).getD []).find?
            (fun c => match alookup c st.user_info with
              | some uc => decide (uc.id = m.target.getD "")
              | none => false) with
        | some target_ws =>
            send_to_user dead fuel st target_ws
              (OutMsg.webrtc m u.id u.name "vercel")
        | none => (st, [])
      else
        broadcast_to_room dead fuel st rid
          (OutMsg.webrtc m u.id u.name "vercel") (some ws)) := by
    unfold handle_webrtc_message
    rw [hui]
  rw [hred]
  simp only [htgt, Option.getD_some]
  rw [if_pos hne]
  have hfind : ((alookup rid st.active_connections).getD []).find?
      (fun c => match alookup c st.user_info with
        | some uc => decide (uc.id = tgt)
        | none => false) = none := by
    rw [List.find?_eq_none]
    intro c hc
    cases halo : alookup c st.user_info with
    | none =>
      show ¬ false = true
      exact Bool.false_ne_true
    | some uc =>
      have h2 := hmiss c hc
      rw [halo] at h2
      have h4 : uc.id ≠ tgt := fun h3 => h2 (by simp [h3])
      show ¬ decide (uc.id = tgt) = true
      simp only [decide_eq_true_eq]
      exact h4
  rw [hfind]

theorem c7_witness :
    handle_frame [] 3 (⟨[("r1", [1, 2])], [(1, "r1"), (2, "r1")],
        [(1, UserData.mk "ua" "A" "t1" "vercel"),
         (2, UserData.mk "ub" "B" "t2" "vercel")]⟩ : ManagerState) 1 "r1" "t9"
      (Frame.valid (InMsg.mk (some "offer") (some "zz") none none none "sdp")) =
      ((⟨[("r1", [1, 2])], [(1, "r1"), (2, "r1")],
        [(1, UserData.mk "ua" "A" "t1" "vercel"),
         (2, UserData.mk "ub" "B" "t2" "vercel")]⟩ : ManagerState), []) :=
  c7_unicast_miss [] 3 _ 1 "r1" "t9" _ (UserData.mk "ua" "A" "t1" "vercel") "zz"
    (by decide) (Or.inl rfl) rfl (by decide) (by decide)

theorem handle_frame_chat (dead : List Conn) (fuel : Nat) (st : ManagerState)
    (ws : Conn) (rid : RoomId) (now : String) (m : InMsg)
    (hty : m.type? = some "chat") :
    handle_frame dead fuel st ws rid now (Frame.valid m) =
      handle_chat_message dead fuel st ws rid now m := by
  simp only [handle_frame]
  rw [hty, if_neg (by decide), if_neg (by decide), if_pos (by decide)]

theorem handle_frame_media (dead : List Conn) (fuel : Nat) (st : ManagerState)
    (ws : Conn) (rid : RoomId) (now : String) (m : InMsg)
    (hty : m.type? = some "media-state") :
    handle_frame dead fuel st ws rid now (Frame.valid m) =
      handle_media_state dead fuel st ws rid m := by
  simp only [handle_frame]
  rw [hty, if_neg (by decide), if_pos (by decide)]

theorem handle_frame_webrtc (dead : List Conn) (fuel : Nat) (st : ManagerState)
    (ws : Conn) (rid : RoomId) (now : String) (m : InMsg)
    (hty : m.type? = some "offer" ∨ m.type? = some "answer" ∨
      m.type? = some "ice-candidate") :
    handle_frame dead fuel st ws rid now (Frame.valid m) =
      handle_webrtc_message dead fuel st ws rid m := by
  simp only [handle_frame]
  rcases hty with h | h | h <;> rw [h, if_pos (by decide)]

theorem excl_broadcast_events (ms : List Conn) (ws : Conn) (out : OutMsg) :
    (∀ c ∈ ms, c ≠ ws →
      (c, out) ∈ (ms.filter (fun y => !decide (some y = some ws))).map
        (fun y => (y, out))) ∧
    ∀ o : OutMsg, ¬ (ws, o) ∈
      (ms.filter (fun y => !decide (some y = some ws))).map (fun y => (y, out)) := by
  constructor
  · intro c hc hcw
    exact List.mem_map.mpr ⟨c, List.mem_filter.mpr ⟨hc, by simp [hcw]⟩, rfl⟩
  · intro o hmem
    rcases List.mem_map.mp hmem with ⟨c, hcf, heq⟩
    have hc1 : c = ws := congrArg Prod.fst heq
    have hc2 := (List.mem_filter.mp hcf).2
    rw [hc1] at hc2
    simp at hc2

/-- C4: for a joined sender, an inbound chat message is delivered to every
member of the sender's room, the sender included (no exclusion is passed
to the broadcast); an inbound offer, answer or ice-candidate message with
no target, and an inbound media-state message, are delivered to every room
member except the sender and never to the sender itself. -/
theorem c4_routing :
    (∀ fuel st ws rid now (m : InMsg) u ms text,
      alookup ws st.user_info = some u →
      alookup rid st.active_connections = some ms →
      m.type? = some "chat" → m.message = some text →
      (handle_frame [] (fuel + 1) st ws rid now (Frame.valid m)).2 =
        ms.map (fun c => (c, OutMsg.chat u text now "vercel"))) ∧
    (∀ fuel st ws rid now (m : InMsg) u ms,
      alookup ws st.user_info = some u →
      alookup rid st.active_connections = some ms →
      (m.type? = some "offer" ∨ m.type? = some "answer" ∨
        m.type? = some "ice-candidate") →
      m.target = none →
      ((∀ c ∈ ms, c ≠ ws → (c, OutMsg.webrtc m u.id u.name "vercel") ∈
          (handle_frame [] (fuel + 1) st ws rid now (Frame.valid m)).2) ∧
       (∀ o : OutMsg, ¬ (ws, o) ∈
          (handle_frame [] (fuel + 1) st ws rid now (Frame.valid m)).2))) ∧
    (∀ fuel st ws rid now (m : InMsg) u ms,
      alookup ws st.user_info = some u →
      alookup rid st.active_connections = some ms →
      m.type? = some "media-state" →
      ((∀ c ∈ ms, c ≠ ws →
          (c, OutMsg.media_state u (m.audio_enabled.getD true)
            (m.video_enabled.getD true) "vercel") ∈
          (handle_frame [] (fuel + 1) st ws rid now (Frame.valid m)).2) ∧
       (∀ o : OutMsg, ¬ (ws, o) ∈
          (handle_frame [] (fuel + 1) st ws rid now (Frame.valid m)).2))) := by
  refine ⟨?_, ?_, ?_⟩
  · intro fuel st ws rid now m u ms text hui hms hty hmsg
    rw [handle_frame_chat [] (fuel + 1) st ws rid now m hty]
    have hred1 : handle_chat_message [] (fuel + 1) st ws rid now m =
        (match m.message with
         | none => (st, [])
         | some text2 => broadcast_to_room [] (fuel + 1) st rid
             (OutMsg.chat u text2 now "vercel") none) := by
      unfold handle_chat_message
      rw [hui]
    rw [hred1, hmsg]
    show (broadcast_to_room [] (fuel + 1) st rid (OutMsg.chat u text now "vercel")
      none).2 = _
    rw [broadcast_nodead fuel st rid (OutMsg.chat u text now "vercel") none ms hms]
    show (ms.filter (fun c => !decide (some c = none))).map
        (fun c => (c, OutMsg.chat u text now "vercel")) = _
    rw [List.filter_eq_self.mpr (by intro c hc; simp)]
  · intro fuel st ws rid now m u ms hui hms hty htgt
    rw [handle_frame_webrtc [] (fuel + 1) st ws rid now m hty]
    have hred : handle_webrtc_message [] (fuel + 1) st ws rid m =
        broadcast_to_room [] (fuel + 1) st rid
          (OutMsg.webrtc m u.id u.name "vercel") (some ws) := by
      unfold handle_webrtc_message
      rw [hui]
      simp only [htgt]
      rfl
    rw [hred, broadcast_nodead fuel st rid (OutMsg.webrtc m u.id u.name "vercel")
      (some ws) ms hms]
    exact excl_broadcast_events ms ws (OutMsg.webrtc m u.id u.name "vercel")
  · intro fuel st ws rid now m u ms hui hms hty
    rw [handle_frame_media [] (fuel + 1) st ws rid now m hty]
    have hred : handle_media_state [] (fuel + 1) st ws rid m =
        broadcast_to_room [] (fuel + 1) st rid
          (OutMsg.media_state u (m.audio_enabled.getD true)
            (m.video_enabled.getD true) "vercel") (some ws) := by
      unfold handle_media_state
      rw [hui]
    rw [hred, broadcast_nodead fuel st rid
      (OutMsg.media_state u (m.audio_enabled.getD true)
        (m.video_enabled.getD true) "vercel") (some ws) ms hms]
    exact excl_broadcast_events ms ws _

def wit_uA : UserData := ⟨"ua", "A", "t1", "vercel"⟩

def wit_uB : UserData := ⟨"ub", "B", "t2", "vercel"⟩

def wit_st : ManagerState :=
  ⟨[("r1", [1, 2])], [(1, "r1"), (2, "r1")], [(1, wit_uA), (2, wit_uB)]⟩

def wit_mChat : InMsg := ⟨some "chat", none, some "hi", none, none, ""⟩

def wit_mOffer : InMsg := ⟨some "offer", none, none, none, none, "sdp"⟩

def wit_mMedia : InMsg := ⟨some "media-state", none, none, some false, none, ""⟩

theorem c4_witness :
    (handle_frame [] 2 wit_st 1 "r1" "t9" (Frame.valid wit_mChat)).2 =
      [1, 2].map (fun c => (c, OutMsg.chat wit_uA "hi" "t9" "vercel")) ∧
    (2, OutMsg.webrtc wit_mOffer "ua" "A" "vercel") ∈
      (handle_frame [] 2 wit_st 1 "r1" "t9" (Frame.valid wit_mOffer)).2 ∧
    ¬ (1, OutMsg.pong) ∈ (handle_frame [] 2 wit_st 1 "r1" "t9"
      (Frame.valid wit_mOffer)).2 ∧
    (2, OutMsg.media_state wit_uA false true "vercel") ∈
      (handle_frame [] 2 wit_st 1 "r1" "t9" (Frame.valid wit_mMedia)).2 :=
  ⟨c4_routing.1 1 wit_st 1 "r1" "t9" wit_mChat wit_uA [1, 2] "hi"
      (by decide) (by decide) rfl rfl,
   (c4_routing.2.1 1 wit_st 1 "r1" "t9" wit_mOffer wit_uA [1, 2]
      (by decide) (by decide) (Or.inl rfl) rfl).1 2 (by decide) (by decide),
   (c4_routing.2.1 1 wit_st 1 "r1" "t9" wit_mOffer wit_uA [1, 2]
      (by decide) (by decide) (Or.inl rfl) rfl).2 OutMsg.pong,
   (c4_routing.2.2 1 wit_st 1 "r1" "t9" wit_mMedia wit_uA [1, 2]
      (by decide) (by decide) rfl).1 2 (by decide) (by decide)⟩

/-- C2: the participants roster in the room_joined message sent to a
freshly accepted websocket equals the pre-state roster of the room — it is
computed before the new connection is inserted into the member set — and,
the new participant's id being distinct from every existing member's id,
its own record never appears in that snapshot, whatever the room's prior
membership. -/
theorem c2_roster_snapshot (fuel : Nat) (st : ManagerState) (ws : Conn)
    (rid : RoomId) (u : UserData) (hInv : StateInv st)
    (hfresh : alookup ws st.user_rooms = none)
    (hid : ∀ p ∈ rosterOf st rid, p.id ≠ u.id) :
    (connect [] fuel st ws rid u).2.head? =
      some (ws, OutMsg.room_joined rid u.id (rosterOf st rid) "vercel") ∧
    ¬ u ∈ rosterOf st rid := by
  have hros := connectRoster_eq st ws rid u hInv hfresh
  constructor
  · unfold connect
    by_cases hemp : (connectRoster st ws rid u).isEmpty
    · rw [if_pos hemp, send_nodead, hros]
      rfl
    · rw [if_neg hemp]
      show ((send_to_user [] fuel (connectState st ws rid u) ws
          (OutMsg.room_joined rid u.id (connectRoster st ws rid u) "vercel")).2 ++
        (broadcast_to_room [] fuel
          (send_to_user [] fuel (connectState st ws rid u) ws
            (OutMsg.room_joined rid u.id (connectRoster st ws rid u) "vercel")).1
          rid (OutMsg.user_joined u rid) (some ws)).2).head? = _
      rw [send_nodead, hros]
      rfl
  · intro hmem
    exact hid u hmem rfl

def wit_uC : UserData := ⟨"uc", "C", "t3", "vercel"⟩

def wit_ops : List Op :=
  [Op.opConnect [] 1 1 "r1" wit_uA, Op.opConnect [] 1 2 "r1" wit_uB]

theorem c2_witness :
    (connect [] 3 (run wit_ops) 3 "r1" wit_uC).2.head? =
      some (3, OutMsg.room_joined "r1" "uc" (rosterOf (run wit_ops) "r1") "vercel") ∧
    ¬ wit_uC ∈ rosterOf (run wit_ops) "r1" :=
  c2_roster_snapshot 3 (run wit_ops) 3 "r1" wit_uC (run_inv wit_ops)
    (by decide) (by decide)

/-- C3: with no send failures, (a) a join into a room with pre-existing
members broadcasts user_joined to every pre-existing member, and no
user_joined message is ever delivered to the joining connection itself;
(b) a leave of a tracked connection with a bound participant record
broadcasts user_left to every remaining member of the room, and no message
at all is delivered to the departed connection. -/
theorem c3_announcements :
    (∀ fuel st ws rid u ms, StateInv st → alookup ws st.user_rooms = none →
      alookup rid st.active_connections = some ms →
      ((∀ c ∈ ms, (c, OutMsg.user_joined u rid) ∈
          (connect [] (fuel + 1) st ws rid u).2) ∧
       (∀ v r2, ¬ (ws, OutMsg.user_joined v r2) ∈
          (connect [] (fuel + 1) st ws rid u).2))) ∧
    (∀ fuel st ws rid u, StateInv st → alookup ws st.user_rooms = some rid →
      alookup ws st.user_info = some u →
      ((∀ c ∈ (membersOf st rid).filter (fun y => !decide (y = ws)),
          (c, OutMsg.user_left u) ∈ (disconnect [] (fuel + 2) st ws).2) ∧
       (∀ m2 : OutMsg, ¬ (ws, m2) ∈ (disconnect [] (fuel + 2) st ws).2))) := by
  constructor
  · intro fuel st ws rid u ms hInv hfresh hms
    have hros := connectRoster_eq st ws rid u hInv hfresh
    have hne : ms ≠ [] := (hInv.2.1 rid ms hms).1
    have hrosne : rosterOf st rid ≠ [] := by
      cases ms with
      | nil => exact absurd rfl hne
      | cons c0 tl =>
        have hc0 : c0 ∈ c0 :: tl := List.mem_cons_self c0 tl
        have h2 := (hInv.2.1 rid (c0 :: tl) hms).2 c0 hc0
        have hui0 : (alookup c0 st.user_info).isSome = true :=
          (hInv.2.2.2 c0).mp (by rw [h2]; rfl)
        cases hzz : alookup c0 st.user_info with
        | none =>
          rw [hzz] at hui0
          cases hui0
        | some u0 =>
          apply List.ne_nil_of_mem
          apply List.mem_filterMap.mpr
          refine ⟨c0, ?_, hzz⟩
          unfold membersOf
          rw [hms]
          exact hc0
    have hempF : (connectRoster st ws rid u).isEmpty = false := by
      rw [hros]
      cases hzz2 : rosterOf st rid with
      | nil => exact absurd hzz2 hrosne
      | cons a tl => rfl
    have hwsnot : ¬ ws ∈ ms := by
      intro hmem
      have h2 := (hInv.2.1 rid ms hms).2 ws hmem
      rw [hfresh] at h2
      cases h2
    have hacc : alookup rid (connectState st ws rid u).active_connections =
        some (ms ++ [ws]) := by
      show alookup rid (addMember rid ws (ensureRoom rid st.active_connections)) = _
      rw [alookup_addMember, if_pos rfl, alookup_ensureRoom, if_pos rfl, hms]
      show some (addToSet ws ms) = _
      unfold addToSet
      rw [if_neg hwsnot]
    have hevs : (connect [] (fuel + 1) st ws rid u).2 =
        (ws, OutMsg.room_joined rid u.id (connectRoster st ws rid u) "vercel") ::
          ((ms ++ [ws]).filter (fun y => !decide (some y = some ws))).map
            (fun y => (y, OutMsg.user_joined u rid)) := by
      unfold connect
      rw [if_neg (by rw [hempF]; exact Bool.false_ne_true)]
      show ((send_to_user [] (fuel + 1) (connectState st ws rid u) ws
          (OutMsg.room_joined rid u.id (connectRoster st ws rid u) "vercel")).2 ++
        (broadcast_to_room [] (fuel + 1)
          (send_to_user [] (fuel + 1) (connectState st ws rid u) ws
            (OutMsg.room_joined rid u.id (connectRoster st ws rid u) "vercel")).1
          rid (OutMsg.user_joined u rid) (some ws)).2) = _
      rw [send_nodead]
      rw [broadcast_nodead fuel (connectState st ws rid u) rid
        (OutMsg.user_joined u rid) (some ws) (ms ++ [ws]) hacc]
      rfl
    constructor
    · intro c hc
      rw [hevs]
      apply List.mem_cons.mpr
      right
      have hcw : c ≠ ws := by
        intro h2
        exact hwsnot (h2 ▸ hc)
      exact (excl_broadcast_events (ms ++ [ws]) ws (OutMsg.user_joined u rid)).1 c
        (List.mem_append_left [ws] hc) hcw
    · intro v r2 hmem
      rw [hevs] at hmem
      rcases List.mem_cons.mp hmem with h | h
      · have h2 : OutMsg.user_joined v r2 =
            OutMsg.room_joined rid u.id (connectRoster st ws rid u) "vercel" :=
          congrArg Prod.snd h
        exact OutMsg.noConfusion h2
      · exact (excl_broadcast_events (ms ++ [ws]) ws
          (OutMsg.user_joined u rid)).2 (OutMsg.user_joined v r2) h
  · intro fuel st ws rid u hInv hur hui
    obtain ⟨ms, hms, hwm⟩ := hInv.2.2.1 ws rid hur
    have hreg : (alookup rid st.active_connections).isSome = true := by
      rw [hms]
      rfl
    rw [disconnect_succ_full [] (fuel + 1) st ws rid u hur hui hreg]
    have hmembers : membersOf st rid = ms := by
      unfold membersOf
      rw [hms]
      rfl
    by_cases hrem : ms.filter (fun y => !decide (y = ws)) = []
    · have hfe : alookup rid (discardMember rid ws st.active_connections) =
          some [] := by
        rw [alookup_discardMember, if_pos rfl, hms]
        show some (ms.filter (fun y => !decide (y = ws))) = some []
        rw [hrem]
      have hdel : alookup rid (discStep st ws rid).active_connections = none := by
        rw [discStep_active_field st ws rid ms hms, alookup_dropIfEmpty,
          if_pos ⟨hfe, rfl⟩]
      rw [broadcast_noroom [] fuel (discStep st ws rid) rid (OutMsg.user_left u)
        (some ws) hdel]
      constructor
      · intro c hc
        rw [hmembers, hrem] at hc
        cases hc
      · intro m2 hmem
        cases hmem
    · have hfe : alookup rid (discardMember rid ws st.active_connections) =
          some (ms.filter (fun y => !decide (y = ws))) := by
        rw [alookup_discardMember, if_pos rfl, hms]
        rfl
      have hrm : alookup rid (discStep st ws rid).active_connections =
          some (ms.filter (fun y => !decide (y = ws))) := by
        rw [discStep_active_field st ws rid ms hms, alookup_dropIfEmpty,
          if_neg (fun hcc => hrem (by
            rw [hfe] at hcc
            exact Option.some.inj hcc.1))]
        exact hfe
      rw [broadcast_nodead fuel (discStep st ws rid) rid (OutMsg.user_left u)
        (some ws) (ms.filter (fun y => !decide (y = ws))) hrm]
      have hff : (ms.filter (fun y => !decide (y = ws))).filter
          (fun y => !decide (some y = some ws)) =
            ms.filter (fun y => !decide (y = ws)) := by
        apply List.filter_eq_self.mpr
        intro a ha
        have h2 := (mem_filter_ne a ws ms).mp ha
        simp [h2.2]
      show (∀ c ∈ (membersOf st rid).filter (fun y => !decide (y = ws)),
          (c, OutMsg.user_left u) ∈
            ((ms.filter (fun y => !decide (y = ws))).filter
              (fun y => !decide (some y = some ws))).map
              (fun y => (y, OutMsg.user_left u))) ∧
        (∀ m2 : OutMsg, ¬ (ws, m2) ∈
          ((ms.filter (fun y => !decide (y = ws))).filter
            (fun y => !decide (some y = some ws))).map
            (fun y => (y, OutMsg.user_left u)))
      rw [hff, hmembers]
      constructor
      · intro c hc
        exact List.mem_map.mpr ⟨c, hc, rfl⟩
      · intro m2 hmem
        rcases List.mem_map.mp hmem with ⟨c, hcf, heq⟩
        have hc1 : c = ws := congrArg Prod.fst heq
        have hc2 := (mem_filter_ne c ws ms).mp hcf
        exact hc2.2 hc1

theorem c3_witness :
    ((1, OutMsg.user_joined wit_uC "r1") ∈
      (connect [] 1 (run wit_ops) 3 "r1" wit_uC).2 ∧
     ¬ (3, OutMsg.user_joined wit_uC "r1") ∈
      (connect [] 1 (run wit_ops) 3 "r1" wit_uC).2) ∧
    ((2, OutMsg.user_left wit_uA) ∈ (disconnect [] 2 (run wit_ops) 1).2 ∧
     ¬ (1, OutMsg.user_left wit_uA) ∈ (disconnect [] 2 (run wit_ops) 1).2) :=
  ⟨⟨(c3_announcements.1 0 (run wit_ops) 3 "r1" wit_uC [1, 2] (run_inv wit_ops)
        (by decide) (by decide)).1 1 (by decide),
    (c3_announcements.1 0 (run wit_ops) 3 "r1" wit_uC [1, 2] (run_inv wit_ops)
        (by decide) (by decide)).2 wit_uC "r1"⟩,
   ⟨(c3_announcements.2 0 (run wit_ops) 1 "r1" wit_uA (run_inv wit_ops)
        (by decide) (by decide)).1 2 (by decide),
    (c3_announcements.2 0 (run wit_ops) 1 "r1" wit_uA (run_inv wit_ops)
        (by decide) (by decide)).2 (OutMsg.user_left wit_uA)⟩⟩

theorem cleanupLoop_notTracked (dead : List Conn) (c : Conn) (fuel : Nat) :
    ∀ l st rid, NotTracked c st →
    NotTracked c ((cleanupLoop (fun s y => disconnect dead fuel s y) rid st l).1) := by
  intro l
  induction l with
  | nil => exact fun st rid h => h
  | cons x rest ihl =>
    intro st rid h
    exact ihl _ rid
      ((engine_notTracked dead c fuel).1 _ x (discard_notTracked c st rid x h))

theorem notTracked_of_untracked (st : ManagerState) (c : Conn) (hInv : StateInv st)
    (hur : alookup c st.user_rooms = none) : NotTracked c st := by
  refine ⟨hur, ?_, ?_⟩
  · cases hui : alookup c st.user_info with
    | none => rfl
    | some u =>
      have h2 := (hInv.2.2.2 c).mpr (by rw [hui]; rfl)
      rw [hur] at h2
      cases h2
  · intro r hmem
    unfold membersOf at hmem
    cases hl : alookup r st.active_connections with
    | none =>
      rw [hl] at hmem
      cases hmem
    | some ms0 =>
      rw [hl] at hmem
      have h3 := (hInv.2.1 r ms0 hl).2 c hmem
      rw [hur] at h3
      cases h3

theorem discStep_notTracked_self (st : ManagerState) (ws : Conn) (rid : RoomId)
    (hInv : StateInv st) (hur : alookup ws st.user_rooms = some rid) :
    NotTracked ws (discStep st ws rid) := by
  obtain ⟨ms, hms, hwm⟩ := hInv.2.2.1 ws rid hur
  refine ⟨?_, ?_, ?_⟩
  · rw [discStep_ur, alookup_eraseK, if_pos rfl]
  · rw [discStep_ui, alookup_eraseK, if_pos rfl]
  · intro r hmem
    by_cases hr : r = rid
    · subst hr
      unfold membersOf at hmem
      rw [discStep_active_field st ws r ms hms, alookup_dropIfEmpty] at hmem
      by_cases hcond :
          alookup r (discardMember r ws st.active_connections) = some [] ∧ r = r
      · rw [if_pos hcond] at hmem
        cases hmem
      · rw [if_neg hcond, alookup_discardMember, if_pos rfl, hms] at hmem
        have h2 : ws ∈ ms.filter (fun y => !decide (y = ws)) := hmem
        exact ((mem_filter_ne ws ws ms).mp h2).2 rfl
    · have h2 : ws ∈ membersOf st r := membersOf_discStep_subset st ws rid r ws hmem
      unfold membersOf at h2
      cases hl : alookup r st.active_connections with
      | none =>
        rw [hl] at h2
        cases h2
      | some ms0 =>
        rw [hl] at h2
        have h3 := (hInv.2.1 r ms0 hl).2 ws h2
        rw [hur] at h3
        exact hr (Option.some.inj h3).symm

theorem disconnect_removes (dead : List Conn) (fuel : Nat) (st : ManagerState)
    (ws : Conn) (rid : RoomId) (hInv : StateInv st)
    (hur : alookup ws st.user_rooms = some rid) :
    NotTracked ws ((disconnect dead (fuel + 1) st ws).1) := by
  obtain ⟨ms, hms, hwm⟩ := hInv.2.2.1 ws rid hur
  have hreg : (alookup rid st.active_connections).isSome = true := by
    rw [hms]
    rfl
  have hui : (alookup ws st.user_info).isSome = true :=
    (hInv.2.2.2 ws).mp (by rw [hur]; rfl)
  cases hui2 : alookup ws st.user_info with
  | none =>
    rw [hui2] at hui
    cases hui
  | some u =>
    rw [disconnect_succ_full dead fuel st ws rid u hur hui2 hreg]
    exact (engine_notTracked dead ws fuel).2 (discStep st ws rid) rid
      (OutMsg.user_left u) (some ws) (discStep_notTracked_self st ws rid hInv hur)

theorem cleanupLoop_removes (dead : List Conn) (fuel : Nat) (rid : RoomId) (c : Conn) :
    ∀ l st, StateInv st → c ∈ l →
    NotTracked c ((cleanupLoop (fun s y => disconnect dead (fuel + 1) s y) rid st l).1) := by
  intro l
  induction l with
  | nil =>
    intro st hInv hm
    cases hm
  | cons x rest ihl =>
    intro st hInv hm
    have hred : (cleanupLoop (fun s y => disconnect dead (fuel + 1) s y) rid st
          (x :: rest)).1
        = (cleanupLoop (fun s y => disconnect dead (fuel + 1) s y) rid
            (disconnect dead (fuel + 1)
              { st with active_connections :=
                discardMember rid x st.active_connections } x).1
            rest).1 := rfl
    rw [hred, cleanupStep_eq dead fuel st rid x hInv]
    by_cases hxc : x = c
    · subst hxc
      have hnt : NotTracked x ((disconnect dead (fuel + 1) st x).1) := by
        cases hur : alookup x st.user_rooms with
        | none =>
          rw [disconnect_untracked_eq dead (fuel + 1) st x hur]
          exact notTracked_of_untracked st x hInv hur
        | some rid0 => exact disconnect_removes dead fuel st x rid0 hInv hur
      exact cleanupLoop_notTracked dead x (fuel + 1) rest _ rid hnt
    · rcases List.mem_cons.mp hm with h | h
      · exact absurd h.symm hxc
      · exact ihl _ (disconnect_inv dead (fuel + 1) st x hInv) h

/-- C8: for every broadcast to a registered room, one and the same message
value is delivered to every live recipient, and every member whose
delivery fails (it is in the dead set and not the excluded sender) is
removed from the room and fully cleaned up through the disconnect path:
after the broadcast it is absent from user_rooms, from user_info and from
every room's member set. -/
theorem c8_broadcast_failure_cleanup (dead : List Conn) (fuel : Nat)
    (st : ManagerState) (rid : RoomId) (message : OutMsg) (exclude : Option Conn)
    (ms : List Conn) (c : Conn)
    (hInv : StateInv st) (hms : alookup rid st.active_connections = some ms)
    (hc : c ∈ ms) (hdead : c ∈ dead) (hexcl : some c ≠ exclude) :
    NotTracked c ((broadcast_to_room dead (fuel + 1) st rid message exclude).1) ∧
    ∃ tail, (broadcast_to_room dead (fuel + 1) st rid message exclude).2 =
      ((ms.filter (fun y => !decide (some y = exclude))).filter
        (fun y => !decide (y ∈ dead))).map (fun y => (y, message)) ++ tail := by
  have hdisc : c ∈ (ms.filter (fun y => !decide (some y = exclude))).filter
      (fun y => decide (y ∈ dead)) := by
    apply List.mem_filter.mpr
    refine ⟨List.mem_filter.mpr ⟨hc, ?_⟩, ?_⟩
    · simp [hexcl]
    · simp [hdead]
  constructor
  · rw [broadcast_succ]
    unfold bcastAux
    rw [hms]
    show NotTracked c ((cleanupLoop (fun s y => disconnect dead (fuel + 1) s y) rid st
      ((ms.filter (fun y => !decide (some y = exclude))).filter
        (fun y => decide (y ∈ dead)))).1)
    exact cleanupLoop_removes dead fuel rid c _ st hInv hdisc
  · rw [broadcast_succ]
    unfold bcastAux
    rw [hms]
    exact ⟨(cleanupLoop (fun s y => disconnect dead (fuel + 1) s y) rid st
      ((ms.filter (fun y => !decide (some y = exclude))).filter
        (fun y => decide (y ∈ dead)))).2, rfl⟩

theorem c8_witness :
    NotTracked 2 ((broadcast_to_room [2] 4 (run wit_ops) "r1" OutMsg.pong none).1) ∧
    ∃ tail, (broadcast_to_room [2] 4 (run wit_ops) "r1" OutMsg.pong none).2 =
      (([1, 2].filter (fun y => !decide (some y = (none : Option Conn)))).filter
        (fun y => !decide (y ∈ ([2] : List Conn)))).map (fun y => (y, OutMsg.pong))
        ++ tail :=
  c8_broadcast_failure_cleanup [2] 3 (run wit_ops) "r1" OutMsg.pong none [1, 2] 2
    (run_inv wit_ops) (by decide) (by decide) (by decide) (by decide)

theorem disconnect_deletes_empty_room (dead : List Conn) (fuel : Nat)
    (st : ManagerState) (ws : Conn) (rid : RoomId) (hInv : StateInv st)
    (hur : alookup ws st.user_rooms = some rid)
    (hlast : (membersOf st rid).filter (fun y => !decide (y = ws)) = []) :
    alookup rid ((disconnect dead (fuel + 1) st ws).1).active_connections = none := by
  obtain ⟨ms, hms, hwm⟩ := hInv.2.2.1 ws rid hur
  have hreg : (alookup rid st.active_connections).isSome = true := by
    rw [hms]
    rfl
  have hui : (alookup ws st.user_info).isSome = true :=
    (hInv.2.2.2 ws).mp (by rw [hur]; rfl)
  have hmembers : membersOf st rid = ms := by
    unfold membersOf
    rw [hms]
    rfl
  rw [hmembers] at hlast
  have hfe : alookup rid (discardMember rid ws st.active_connections) = some [] := by
    rw [alookup_discardMember, if_pos rfl, hms]
    show some (ms.filter (fun y => !decide (y = ws))) = some []
    rw [hlast]
  have hdel : alookup rid (discStep st ws rid).active_connections = none := by
    rw [discStep_active_field st ws rid ms hms, alookup_dropIfEmpty,
      if_pos ⟨hfe, rfl⟩]
  cases hui2 : alookup ws st.user_info with
  | none =>
    rw [hui2] at hui
    cases hui
  | some u =>
    rw [disconnect_succ_full dead fuel st ws rid u hur hui2 hreg]
    cases fuel with
    | zero =>
      rw [broadcast_zero]
      exact hdel
    | succ f =>
      rw [broadcast_noroom dead f (discStep st ws rid) rid (OutMsg.user_left u)
        (some ws) hdel]
      exact hdel

/-- C1: along every sequence of connect, disconnect and broadcast
operations, every room id present in the registry maps to a non-empty
member set, and when a disconnect removes the last member of a room the
room entry is deleted in that same step: immediately afterwards the room
id is absent from the registry. -/
theorem c1_registry_rooms_nonempty :
    (∀ ops : List Op, ∀ r ms,
      alookup r (run ops).active_connections = some ms → ms ≠ []) ∧
    (∀ ops : List Op, ∀ dead fuel ws rid,
      alookup ws (run ops).user_rooms = some rid →
      (membersOf (run ops) rid).filter (fun y => !decide (y = ws)) = [] →
      alookup rid ((disconnect dead (fuel + 1) (run ops) ws).1).active_connections =
        none) := by
  constructor
  · intro ops r ms h
    exact ((run_inv ops).2.1 r ms h).1
  · intro ops dead fuel ws rid h1 h2
    exact disconnect_deletes_empty_room dead fuel (run ops) ws rid (run_inv ops) h1 h2

def wit_ops1 : List Op := [Op.opConnect [] 1 1 "r1" wit_uA]

theorem c1_witness :
    (([1] : List Conn) ≠ []) ∧
    alookup "r1" ((disconnect [] 1 (run wit_ops1) 1).1).active_connections = none :=
  ⟨c1_registry_rooms_nonempty.1 wit_ops1 "r1" [1] (by decide),
   c1_registry_rooms_nonempty.2 wit_ops1 [] 0 1 "r1" (by decide) (by decide)⟩

/-- C10: along every sequence of connect, disconnect and broadcast
operations, a websocket belongs to some room's member set exactly when it
has a user_rooms entry naming that room and a user_info entry; no
connection is indexed in one structure but not the others. -/
theorem c10_bidirectional_index :
    (∀ ops : List Op, ∀ ws r ms,
      alookup r (run ops).active_connections = some ms → ws ∈ ms →
      alookup ws (run ops).user_rooms = some r ∧
        (alookup ws (run ops).user_info).isSome = true) ∧
    (∀ ops : List Op, ∀ ws r, alookup ws (run ops).user_rooms = some r →
      ∃ ms, alookup r (run ops).active_connections = some ms ∧ ws ∈ ms) ∧
    (∀ ops : List Op, ∀ ws, (alookup ws (run ops).user_rooms).isSome = true ↔
      (alookup ws (run ops).user_info).isSome = true) := by
  refine ⟨?_, ?_, ?_⟩
  · intro ops ws r ms h1 h2
    have hInv := run_inv ops
    have h3 := (hInv.2.1 r ms h1).2 ws h2
    exact ⟨h3, (hInv.2.2.2 ws).mp (by rw [h3]; rfl)⟩
  · intro ops ws r h1
    exact (run_inv ops).2.2.1 ws r h1
  · intro ops ws
    exact (run_inv ops).2.2.2 ws

theorem c10_witness :
    (alookup 1 (run wit_ops).user_rooms = some "r1" ∧
      (alookup 1 (run wit_ops).user_info).isSome = true) ∧
    (∃ ms, alookup "r1" (run wit_ops).active_connections = some ms ∧ 2 ∈ ms) ∧
    ((alookup 2 (run wit_ops).user_rooms).isSome = true ↔
      (alookup 2 (run wit_ops).user_info).isSome = true) :=
  ⟨c10_bidirectional_index.1 wit_ops 1 "r1" [1, 2] (by decide) (by decide),
   c10_bidirectional_index.2.1 wit_ops 2 "r1" (by decide),
   c10_bidirectional_index.2.2 wit_ops 2⟩

end VideoCall
